import Mathlib

/-!
Verification of the windowed anomaly-detection core of a Streamlit dashboard
(`app.py`).  The program keeps a sliding window of recent values in a
`collections.deque` with a `maxlen`, runs one of three detectors over the
window on every tick, and records an anomaly for the newest element when its
flag is set.

Modelling conventions:
* Python floats are idealised as real numbers (`ℝ`) where the algorithm needs
  a square root (`np.std`), and as rationals (`ℚ`) elsewhere, so that the
  definitions stay executable.
* `collections.deque(maxlen := c)` is modelled by a `Window` structure whose
  buffer always keeps the last `c` appended values (`List.rtake`).
* `sklearn.ensemble.IsolationForest(...).fit_predict` is an external library
  call; it is abstracted as a parameter returning `Except String (List Int)`,
  where `Except.error` models a raised Python exception.
* `st.sidebar.slider(label, lo, hi, default)` is a widget that can only
  return a value inside `[lo, hi]`; it is modelled as clamping a requested
  value into that interval.
-/

namespace AnomalyDashboard

/-! ## Signal window (`st.session_state.data`, a `deque` with `maxlen`) -/

/-- Model of `collections.deque(..., maxlen := cap)` from `app.py` line 19:
a fixed-capacity buffer of rationals that keeps only the most recent `cap`
appended values. -/
structure Window where
  cap : ℕ
  buf : List ℚ
  deriving DecidableEq, Repr

/-- `deque.append` (line 160): append `v` at the right end; when the deque is
full the leftmost element is discarded, so the buffer is the last `cap`
elements of `buf ++ [v]`. -/
def Window.push (w : Window) (v : ℚ) : Window :=
  ⟨w.cap, (w.buf ++ [v]).rtake w.cap⟩

/-- Line 89: `deque(list(st.session_state.data), maxlen := window_size)`.
Re-creating a deque from its contents with a new `maxlen` keeps the last
`new cap` elements. -/
def Window.resize (w : Window) (n : ℕ) : Window :=
  ⟨n, w.buf.rtake n⟩

/-- Push a whole list of values, oldest first. -/
def Window.pushAll (w : Window) (vs : List ℚ) : Window :=
  vs.foldl Window.push w

/-! ## numpy helpers used by the detectors -/

/-- `np.mean(series)`: the sum divided by the length (population mean). -/
noncomputable def npMean (l : List ℝ) : ℝ :=
  l.sum / l.length

/-- `np.std(series)`: the square root of the mean of the squared deviations
from the mean (population standard deviation). -/
noncomputable def npStd (l : List ℝ) : ℝ :=
  Real.sqrt ((l.map (fun x => (x - npMean l) ^ 2)).sum / l.length)

/-- `np.median(series)`: sort ascending; take the middle element when the
length is odd, the average of the two middle elements when it is even.
(The empty case, where numpy yields NaN, is given the junk value `0`; all
uses in the program are guarded by a length check.) -/
def npMedian (l : List ℚ) : ℚ :=
  let s := l.mergeSort
  if l.length % 2 = 1 then s.getD (l.length / 2) 0
  else (s.getD (l.length / 2 - 1) 0 + s.getD (l.length / 2) 0) / 2

/-! ## The three detectors (`app.py` lines 33–58) -/

/-- `detect_anomalies_zscore(series, threshold)` (lines 33–40):
if `len(series) < 2` return all-`False`; otherwise compute
`z = (x - mean) / (std + 1e-9)` per element and flag `|z| > threshold`. -/
noncomputable def detect_anomalies_zscore (series : List ℝ) (threshold : ℝ) : List Bool :=
  if series.length < 2 then List.replicate series.length false
  else
    series.map (fun x =>
      decide (|(x - npMean series) / (npStd series + 1e-9)| > threshold))

/-- `detect_anomalies_mad(series, threshold)` (lines 42–49):
if `len(series) < 2` return all-`False`; otherwise compute the median, the
median absolute deviation, `modified_z = 0.6745 * (x - median) / (mad + 1e-9)`
per element, and flag `|modified_z| > threshold`. -/
def detect_anomalies_mad (series : List ℚ) (threshold : ℚ) : List Bool :=
  if series.length < 2 then List.replicate series.length false
  else
    let median := npMedian series
    let mad := npMedian (series.map (fun x => |x - median|))
    series.map (fun x =>
      decide (|0.6745 * (x - median) / (mad + 1e-9)| > threshold))

/-- `detect_anomalies_isolation_forest(series, contamination)` (lines 51–58):
if `len(series) < 2` return all-`False`; otherwise call
`IsolationForest(contamination, random_state := 42).fit_predict` on the
reshaped series and flag the elements predicted `-1`.  The sklearn call is
abstracted by the `fitPredict` parameter; `Except.error` models a raised
exception, which the source does **not** catch (there is no `try`/`except`),
so an error in the fitting step propagates out of the function. -/
def detect_anomalies_isolation_forest
    (fitPredict : ℚ → List ℚ → Except String (List Int))
    (contamination : ℚ) (series : List ℚ) : Except String (List Bool) :=
  if series.length < 2 then Except.ok (List.replicate series.length false)
  else (fitPredict contamination series).map (fun preds =>
    preds.map (fun p => decide (p = -1)))

/-! ## Spec-side definitions (for the refinement claims C1 and C2) -/

/-- Population mean, written from the spec's words. -/
noncomputable def popMean (l : List ℝ) : ℝ :=
  l.sum / l.length

/-- Population variance, written from the spec's words. -/
noncomputable def popVariance (l : List ℝ) : ℝ :=
  (l.map (fun x => (x - popMean l) ^ 2)).sum / l.length

/-- Population standard deviation, written from the spec's words. -/
noncomputable def popStdDev (l : List ℝ) : ℝ :=
  Real.sqrt (popVariance l)

/-- The z-score flags exactly as the spec describes them for a series of
length at least two: `z = (x - mu) / (sigma + 1e-9)` per element, flag
`|z| > threshold`, one boolean per element in the same order. -/
noncomputable def zscoreSpecFlags (series : List ℝ) (threshold : ℝ) : List Bool :=
  series.map (fun x =>
    decide (|(x - popMean series) / (popStdDev series + 1e-9)| > threshold))

/-- Median written from the spec's words, deliberately using a different
sorting algorithm (insertion sort) than the implementation model. -/
def specMedian (l : List ℚ) : ℚ :=
  let s := List.insertionSort (· ≤ ·) l
  if l.length % 2 = 1 then s.getD (l.length / 2) 0
  else (s.getD (l.length / 2 - 1) 0 + s.getD (l.length / 2) 0) / 2

/-- The MAD flags exactly as the spec describes them for a series of length
at least two: `m = median`, `MAD = median(|x - m|)`,
`modified_z = 0.6745 * (x - m) / (MAD + 1e-9)`, flag
`|modified_z| > threshold`, one boolean per element in the same order. -/
def madSpecFlags (series : List ℚ) (threshold : ℚ) : List Bool :=
  series.map (fun x =>
    decide (|0.6745 * (x - specMedian series) /
      (specMedian (series.map (fun y => |y - specMedian series|)) + 1e-9)| > threshold))

/-! ## Configuration (`st.sidebar.slider`, line 85) -/

/-- Model of `st.sidebar.slider(label, lo, hi, default)`: whatever the user
requests, the returned value lies in `[lo, hi]` (the widget clamps). -/
def sliderValue (lo hi req : ℕ) : ℕ :=
  max lo (min hi req)

/-! ## Tick loop (`app.py` lines 152–188) -/

/-- The mutable session state touched by one simulation tick. -/
structure SimState where
  window : Window
  allData : List ℚ
  allAnomalies : List (ℕ × ℚ)
  anomalyLog : List ℚ
  timeStep : ℕ
  deriving DecidableEq, Repr

/-- Fresh session state with a window of capacity `cap` (lines 16–30). -/
def SimState.startState (cap : ℕ) : SimState :=
  ⟨⟨cap, []⟩, [], [], [], 0⟩

/-- One iteration of the main simulation loop (lines 159–183), with the new
generated value `v` and the selected detector `det` as inputs:
append `v` to the window deque and to `all_data`, increment `time_step`;
if the window length has reached `window_size` run the detector, and when the
newest flag is true insert the value into the anomaly log (capped at 50) and
append `(time_step - 1, series[-1])` to `all_anomalies`.
(The log entry's wall-clock timestamp string is not modelled; the log keeps
the recorded values.) -/
def tick (det : List ℚ → List Bool) (v : ℚ) (s : SimState) : SimState :=
  let w := s.window.push v
  let allData := s.allData ++ [v]
  let t := s.timeStep + 1
  let series := w.buf
  if w.cap ≤ series.length then
    let anomalies := det series
    if anomalies.getLast? = some true then
      ⟨w, allData, s.allAnomalies ++ [(t - 1, series.getLast?.getD 0)],
        ((series.getLast?.getD 0) :: s.anomalyLog).take 50, t⟩
    else
      ⟨w, allData, s.allAnomalies, s.anomalyLog, t⟩
  else
    ⟨w, allData, s.allAnomalies, s.anomalyLog, t⟩

/-- Run the tick loop over a list of generated values, oldest first. -/
def runTicks (det : List ℚ → List Bool) (s : SimState) (vs : List ℚ) : SimState :=
  vs.foldl (fun st v => tick det v st) s

/-- Apply an index permutation to a list (used to state C7): element `i` of
the result is element `σ i` of `l`.  The default `d` is junk, irrelevant
whenever `l.length = n`. -/
def permuteL {n : ℕ} {α : Type _} (d : α) (σ : Equiv.Perm (Fin n)) (l : List α) : List α :=
  List.ofFn (fun i => l.getD (σ i) d)

/-- Invariant maintained by the tick loop (used for C10): the time step
counts the recorded data, every anomaly record points at the historical
value that triggered it, record indices lie below the current time step and
are strictly increasing. -/
def RecordInv (s : SimState) : Prop :=
  s.timeStep = s.allData.length ∧
  (∀ iv ∈ s.allAnomalies, s.allData[iv.1]? = some iv.2) ∧
  (∀ iv ∈ s.allAnomalies, iv.1 < s.timeStep) ∧
  (s.allAnomalies.map Prod.fst).Chain' (· < ·)

/-! ## Helper lemmas about `List.rtake` and the window -/

theorem rtake_length_eq {α : Type _} (l : List α) (n : ℕ) :
    (l.rtake n).length = min n l.length := by
  simp only [List.rtake, List.length_drop]
  omega

theorem rtake_of_length_le {α : Type _} {l : List α} {n : ℕ} (h : l.length ≤ n) :
    l.rtake n = l := by
  simp [List.rtake, Nat.sub_eq_zero_of_le h]

theorem take_append_take {α : Type _} (a b : List α) (n : ℕ) :
    (a ++ b.take n).take n = (a ++ b).take n := by
  rw [List.take_append_eq_append_take, List.take_append_eq_append_take, List.take_take,
    min_eq_left (Nat.sub_le n a.length)]

theorem rtake_append_rtake {α : Type _} (l r : List α) (n : ℕ) :
    ((l.rtake n) ++ r).rtake n = (l ++ r).rtake n := by
  simp only [List.rtake_eq_reverse_take_reverse, List.reverse_append, List.reverse_reverse]
  rw [take_append_take]

theorem Window.push_cap (w : Window) (v : ℚ) : (w.push v).cap = w.cap := rfl

theorem Window.push_buf_length_le (w : Window) (v : ℚ) :
    (w.push v).buf.length ≤ w.cap := by
  rw [Window.push, rtake_length_eq]
  exact min_le_left _ _

theorem Window.pushAll_cap : ∀ (vs : List ℚ) (w : Window),
    (w.pushAll vs).cap = w.cap := by
  intro vs
  induction vs with
  | nil => intro w; rfl
  | cons v vs ih =>
    intro w
    show (Window.pushAll (w.push v) vs).cap = w.cap
    rw [ih (w.push v), Window.push_cap]

theorem Window.pushAll_buf : ∀ (vs : List ℚ) (w : Window), w.buf.length ≤ w.cap →
    (w.pushAll vs).buf = (w.buf ++ vs).rtake w.cap := by
  intro vs
  induction vs with
  | nil =>
    intro w hw
    rw [Window.pushAll, List.foldl_nil, List.append_nil, rtake_of_length_le hw]
  | cons v vs ih =>
    intro w hw
    show (Window.pushAll (w.push v) vs).buf = _
    rw [ih (w.push v) (by rw [Window.push_cap]; exact w.push_buf_length_le v)]
    show (((w.buf ++ [v]).rtake w.cap) ++ vs).rtake w.cap = _
    rw [rtake_append_rtake]
    simp

/-! ## Helper lemmas about the statistics -/

theorem npMedian_eq_specMedian (l : List ℚ) : npMedian l = specMedian l := by
  have hsort : l.mergeSort = List.insertionSort (· ≤ ·) l :=
    List.eq_of_perm_of_sorted
      ((List.mergeSort_perm l _).trans (List.perm_insertionSort (· ≤ ·) l).symm)
      (List.sorted_mergeSort' l)
      (List.sorted_insertionSort (· ≤ ·) l)
  rw [npMedian, specMedian, hsort]

theorem npMean_replicate {n : ℕ} (hn : n ≠ 0) (c : ℝ) :
    npMean (List.replicate n c) = c := by
  rw [npMean, List.sum_replicate, List.length_replicate, nsmul_eq_mul,
    mul_div_cancel_left₀ c (Nat.cast_ne_zero.mpr hn)]

theorem npStd_replicate {n : ℕ} (hn : n ≠ 0) (c : ℝ) :
    npStd (List.replicate n c) = 0 := by
  simp [npStd, npMean_replicate hn]

theorem npMedian_replicate {n : ℕ} (hn : 1 ≤ n) (c : ℚ) :
    npMedian (List.replicate n c) = c := by
  have hs : (List.replicate n c).mergeSort = List.replicate n c :=
    List.eq_of_perm_of_sorted (List.mergeSort_perm _ _) (List.sorted_mergeSort' _)
      (List.pairwise_replicate.mpr (Or.inr le_rfl))
  rw [npMedian, hs]
  simp only [List.length_replicate]
  by_cases h : n % 2 = 1
  · have h2 : n / 2 < (List.replicate n c).length := by
      rw [List.length_replicate]; omega
    rw [if_pos h, List.getD_eq_getElem _ _ h2, List.getElem_replicate]
  · have ha : n / 2 - 1 < (List.replicate n c).length := by
      rw [List.length_replicate]; omega
    have hb : n / 2 < (List.replicate n c).length := by
      rw [List.length_replicate]; omega
    rw [if_neg h, List.getD_eq_getElem _ _ ha, List.getD_eq_getElem _ _ hb,
      List.getElem_replicate, List.getElem_replicate]
    ring

/-! ## Claims -/

/-- Claim C1: for every series of length at least two and every threshold,
`detect_anomalies_zscore` returns one boolean per element in the same order,
flagging exactly the elements with `|(x - mu) / (sigma + 1e-9)| > threshold`,
where `mu` is the population mean and `sigma` the population standard
deviation of the whole series. -/
theorem C1_zscore_matches_spec (series : List ℝ) (threshold : ℝ)
    (h : 2 ≤ series.length) :
    detect_anomalies_zscore series threshold = zscoreSpecFlags series threshold := by
  unfold detect_anomalies_zscore zscoreSpecFlags npStd npMean popStdDev popVariance popMean
  rw [if_neg (by omega)]

/-- Witness for C1 at the concrete series `[0, 1]` with threshold `3`. -/
theorem C1_zscore_matches_spec_witness :
    detect_anomalies_zscore [0, 1] 3 = zscoreSpecFlags [0, 1] 3 :=
  C1_zscore_matches_spec [0, 1] 3 (by decide)

/-- Claim C3: on a series of fewer than two elements, each of the three
detector variants returns an all-false result of the same length as the
input (for the Isolation Forest variant, without invoking the fitting step,
whatever it would do). -/
theorem C3_short_series_all_false
    (s1 : List ℝ) (t1 : ℝ) (s2 : List ℚ) (t2 : ℚ)
    (fit : ℚ → List ℚ → Except String (List Int)) (c : ℚ) (s3 : List ℚ)
    (h1 : s1.length < 2) (h2 : s2.length < 2) (h3 : s3.length < 2) :
    detect_anomalies_zscore s1 t1 = List.replicate s1.length false ∧
    detect_anomalies_mad s2 t2 = List.replicate s2.length false ∧
    detect_anomalies_isolation_forest fit c s3 =
      Except.ok (List.replicate s3.length false) := by
  refine ⟨?_, ?_, ?_⟩
  · rw [detect_anomalies_zscore, if_pos h1]
  · rw [detect_anomalies_mad, if_pos h2]
  · rw [detect_anomalies_isolation_forest, if_pos h3]

/-- Witness for C3 at the singleton series `[5]`, the empty series, and the
singleton series `[7]` with a fitting step that would report outliers. -/
theorem C3_short_series_all_false_witness :
    detect_anomalies_zscore [5] 3 = List.replicate ([5] : List ℝ).length false ∧
    detect_anomalies_mad [] 3 = List.replicate ([] : List ℚ).length false ∧
    detect_anomalies_isolation_forest (fun _ s => Except.ok (s.map (fun _ => -1))) (1/20) [7] =
      Except.ok (List.replicate ([7] : List ℚ).length false) :=
  C3_short_series_all_false [5] 3 [] 3 (fun _ s => Except.ok (s.map (fun _ => -1))) (1/20) [7]
    (by decide) (by decide) (by decide)

/-- Counterexample for claim C4: when the fitting step fails on a series that
passes the length guard, `detect_anomalies_isolation_forest` does not return
an all-false result — it propagates the error (the source has no
`try`/`except` around the sklearn call). -/
theorem C4_counterexample :
    detect_anomalies_isolation_forest (fun _ _ => Except.error "fit failed") (1/20) [1, 2] =
      Except.error "fit failed" := rfl

/-- Claim C4 (amended): series of fewer than two elements never reach the
fitting step and yield an all-false result of matching length — in
particular a minimum-sample requirement of up to two samples can never be
violated — but when the fitting step itself fails, the error propagates out
of `detect_anomalies_isolation_forest` uncaught. -/
theorem C4_guard_and_error_propagation
    (fit : ℚ → List ℚ → Except String (List Int)) (c : ℚ) (series : List ℚ) :
    (series.length < 2 →
      detect_anomalies_isolation_forest fit c series =
        Except.ok (List.replicate series.length false)) ∧
    (∀ e, 2 ≤ series.length → fit c series = Except.error e →
      detect_anomalies_isolation_forest fit c series = Except.error e) := by
  constructor
  · intro h
    rw [detect_anomalies_isolation_forest, if_pos h]
  · intro e h hf
    rw [detect_anomalies_isolation_forest, if_neg (by omega), hf]
    rfl

/-- Witness for the amended C4 at the series `[3]` (guarded) and `[3, 4]`
(failing fit). -/
theorem C4_guard_and_error_propagation_witness :
    detect_anomalies_isolation_forest (fun _ _ => Except.error "err") (1/20) [3] =
      Except.ok (List.replicate ([3] : List ℚ).length false) ∧
    detect_anomalies_isolation_forest (fun _ _ => Except.error "err") (1/20) [3, 4] =
      Except.error "err" :=
  ⟨(C4_guard_and_error_propagation (fun _ _ => Except.error "err") (1/20) [3]).1 (by decide),
   (C4_guard_and_error_propagation (fun _ _ => Except.error "err") (1/20) [3, 4]).2 "err"
     (by decide) rfl⟩

/-- Counterexample for claim C9: a requested window capacity of `0` is not
rejected with a configuration error — the slider silently clamps it into its
range, returning `10` — and pushing onto a zero-capacity window is not
rejected either: the push succeeds and simply retains nothing. -/
theorem C9_counterexample :
    sliderValue 10 500 0 = 10 ∧ Window.push ⟨0, []⟩ 5 = ⟨0, []⟩ :=
  ⟨rfl, rfl⟩

/-- Claim C9 (amended): the window capacity is constrained by the slider to
`[10, 500]` at configuration time, so a capacity of `0` (or any value
outside that range) never reaches the detection path; no configuration error
is raised — out-of-range requests are clamped into range — and pushing onto
a zero-capacity window is accepted but retains nothing. -/
theorem C9_capacity_constrained (req : ℕ) :
    0 < sliderValue 10 500 req ∧ 10 ≤ sliderValue 10 500 req ∧
    sliderValue 10 500 req ≤ 500 ∧ ∀ v : ℚ, (Window.push ⟨0, []⟩ v).buf = [] := by
  refine ⟨?_, ?_, ?_, ?_⟩
  · exact lt_of_lt_of_le (by norm_num) (le_max_left _ _)
  · exact le_max_left _ _
  · exact max_le (by norm_num) (min_le_left _ _)
  · intro v
    simp [Window.push]

/-- Claim C5: the window always holds exactly the most recent
`min(C, number of pushed values)` values in push order; after pushing
`C + k` values into an empty window of capacity `C` the snapshot has length
`C` and equals the last `C` pushed values; resizing smaller truncates to the
most recent `new capacity` elements, resizing larger changes nothing. -/
theorem C5_window_holds_most_recent :
    (∀ (C : ℕ) (vs : List ℚ),
      ((Window.mk C []).pushAll vs).buf = vs.rtake C ∧
      ((Window.mk C []).pushAll vs).buf.length = min C vs.length) ∧
    (∀ (C k : ℕ) (vs : List ℚ), vs.length = C + k →
      ((Window.mk C []).pushAll vs).buf.length = C ∧
      ((Window.mk C []).pushAll vs).buf = vs.rtake C) ∧
    (∀ (w : Window) (n : ℕ), n ≤ w.buf.length →
      (w.resize n).cap = n ∧ (w.resize n).buf = w.buf.rtake n) ∧
    (∀ (w : Window) (n : ℕ), w.buf.length ≤ n →
      (w.resize n).cap = n ∧ (w.resize n).buf = w.buf) := by
  have hbuf : ∀ (C : ℕ) (vs : List ℚ), ((Window.mk C []).pushAll vs).buf = vs.rtake C := by
    intro C vs
    rw [Window.pushAll_buf vs ⟨C, []⟩ (by simp)]
    rfl
  refine ⟨fun C vs => ⟨hbuf C vs, ?_⟩, fun C k vs h => ⟨?_, hbuf C vs⟩,
    fun w n _ => ⟨rfl, rfl⟩, fun w n h => ⟨rfl, rtake_of_length_le h⟩⟩
  · rw [hbuf C vs, rtake_length_eq]
  · rw [hbuf C vs, rtake_length_eq, h]
    omega

/-- Witness for C5: capacity 2 with three pushes keeps the last two values;
resizing `⟨2, [4, 5]⟩` down to 1 keeps `[5]`, resizing it up to 3 keeps
`[4, 5]`. -/
theorem C5_window_holds_most_recent_witness :
    ((Window.mk 2 []).pushAll [1, 2, 3]).buf.length = 2 ∧
    ((Window.mk 2 []).pushAll [1, 2, 3]).buf = ([1, 2, 3] : List ℚ).rtake 2 ∧
    ((Window.mk 2 [4, 5]).resize 1).buf = ([4, 5] : List ℚ).rtake 1 ∧
    ((Window.mk 2 [4, 5]).resize 3).buf = [4, 5] :=
  ⟨(C5_window_holds_most_recent.2.1 2 1 [1, 2, 3] (by decide)).1,
   (C5_window_holds_most_recent.2.1 2 1 [1, 2, 3] (by decide)).2,
   (C5_window_holds_most_recent.2.2.1 ⟨2, [4, 5]⟩ 1 (by decide)).2,
   (C5_window_holds_most_recent.2.2.2 ⟨2, [4, 5]⟩ 3 (by decide)).2⟩

/-- Claim C2: for every series of length at least two and every threshold,
`detect_anomalies_mad` returns one boolean per element in the same order,
with `m` the median, `MAD = median(|x - m|)`,
`modified_z = 0.6745 * (x - m) / (MAD + 1e-9)`, flagging exactly where
`|modified_z| > threshold`, with the constant `0.6745` exactly. -/
theorem C2_mad_matches_spec (series : List ℚ) (threshold : ℚ)
    (h : 2 ≤ series.length) :
    detect_anomalies_mad series threshold = madSpecFlags series threshold := by
  rw [detect_anomalies_mad, if_neg (by omega), madSpecFlags]
  simp only [npMedian_eq_specMedian]

/-- Witness for C2 at the concrete series `[1, 2]` with threshold `3`. -/
theorem C2_mad_matches_spec_witness :
    detect_anomalies_mad [1, 2] 3 = madSpecFlags [1, 2] 3 :=
  C2_mad_matches_spec [1, 2] 3 (by decide)

/-- Claim C8: on a constant series of length at least two, both the Z-score
detector and the MAD detector return all-false for every positive threshold:
the dispersion is zero, the epsilon-stabilised denominator makes every score
zero, and zero never exceeds a positive threshold. -/
theorem C8_constant_series_all_false (n : ℕ) (c t : ℝ) (c2 t2 : ℚ)
    (hn : 2 ≤ n) (ht : 0 < t) (ht2 : 0 < t2) :
    detect_anomalies_zscore (List.replicate n c) t = List.replicate n false ∧
    detect_anomalies_mad (List.replicate n c2) t2 = List.replicate n false := by
  have hn0 : n ≠ 0 := by omega
  constructor
  · rw [detect_anomalies_zscore, if_neg (by rw [List.length_replicate]; omega),
      List.map_replicate]
    congr 1
    rw [npMean_replicate hn0, npStd_replicate hn0, sub_self, zero_add, zero_div,
      abs_zero]
    exact decide_eq_false (not_lt.mpr ht.le)
  · rw [detect_anomalies_mad, if_neg (by rw [List.length_replicate]; omega)]
    simp only [npMedian_replicate (by omega : 1 ≤ n) c2, sub_self, abs_zero,
      List.map_replicate, npMedian_replicate (by omega : 1 ≤ n) (0 : ℚ)]
    congr 1
    rw [mul_zero, zero_div, abs_zero]
    exact decide_eq_false (not_lt.mpr ht2.le)

/-- Witness for C8 at the constant series of two ones with threshold one. -/
theorem C8_constant_series_all_false_witness :
    detect_anomalies_zscore (List.replicate 2 1) 1 = List.replicate 2 false ∧
    detect_anomalies_mad (List.replicate 2 1) 1 = List.replicate 2 false :=
  C8_constant_series_all_false 2 1 1 1 1 (by decide) (by norm_num) (by decide)

/-! ## Helper lemmas about the tick loop -/

theorem Window.push_getLast (w : Window) (v : ℚ) (h : 1 ≤ w.cap) :
    (w.push v).buf.getLast? = some v := by
  obtain ⟨cap, buf⟩ := w
  have h : 1 ≤ cap := h
  obtain ⟨m, rfl⟩ : ∃ m, cap = m + 1 := ⟨cap - 1, by omega⟩
  show ((buf ++ [v]).rtake (m + 1)).getLast? = some v
  rw [List.rtake_concat_succ, List.getLast?_concat]

theorem tick_window (det : List ℚ → List Bool) (v : ℚ) (s : SimState) :
    (tick det v s).window = s.window.push v := by
  simp only [tick]
  split
  · split
    · rfl
    · rfl
  · rfl

theorem tick_allData (det : List ℚ → List Bool) (v : ℚ) (s : SimState) :
    (tick det v s).allData = s.allData ++ [v] := by
  simp only [tick]
  split
  · split
    · rfl
    · rfl
  · rfl

theorem tick_timeStep (det : List ℚ → List Bool) (v : ℚ) (s : SimState) :
    (tick det v s).timeStep = s.timeStep + 1 := by
  simp only [tick]
  split
  · split
    · rfl
    · rfl
  · rfl

theorem tick_allAnomalies (det : List ℚ → List Bool) (v : ℚ) (s : SimState)
    (hcap : 1 ≤ s.window.cap) :
    (tick det v s).allAnomalies = s.allAnomalies ∨
    (tick det v s).allAnomalies = s.allAnomalies ++ [(s.timeStep, v)] := by
  simp only [tick]
  split
  · split
    · right
      simp [Window.push_getLast s.window v hcap]
    · left; rfl
  · left; rfl

theorem tick_anomalyLog (det : List ℚ → List Bool) (v : ℚ) (s : SimState) :
    (tick det v s).anomalyLog = s.anomalyLog ∨
    (tick det v s).anomalyLog =
      (((s.window.push v).buf.getLast?.getD 0) :: s.anomalyLog).take 50 := by
  simp only [tick]
  split
  · split
    · right; rfl
    · left; rfl
  · left; rfl

/-- Claim C6: on any tick, while the pushed window is still below its
configured capacity, the detector is not run — the tick result does not
depend on the detector at all — and the newest element is treated as
not-anomalous: no anomaly record and no log entry is produced.  Conversely,
as soon as the window reaches its capacity, a tick whose detector flags the
newest element does append an anomaly record for the just-pushed value. -/
theorem C6_detection_only_when_full (det : List ℚ → List Bool) (v : ℚ) (s : SimState) :
    ((s.window.push v).buf.length < s.window.cap →
      (∀ det2, tick det v s = tick det2 v s) ∧
      (tick det v s).allAnomalies = s.allAnomalies ∧
      (tick det v s).anomalyLog = s.anomalyLog) ∧
    (1 ≤ s.window.cap → s.window.cap ≤ (s.window.push v).buf.length →
      (det (s.window.push v).buf).getLast? = some true →
      (tick det v s).allAnomalies = s.allAnomalies ++ [(s.timeStep, v)]) := by
  constructor
  · intro h
    have hcond : ¬ ((s.window.push v).cap ≤ (s.window.push v).buf.length) := by
      rw [Window.push_cap]; omega
    refine ⟨fun det2 => ?_, ?_, ?_⟩
    · simp only [tick]
      rw [if_neg hcond, if_neg hcond]
    · simp only [tick]
      rw [if_neg hcond]
    · simp only [tick]
      rw [if_neg hcond]
  · intro h1 h2 hdet
    have hcond : (s.window.push v).cap ≤ (s.window.push v).buf.length := by
      rw [Window.push_cap]; omega
    simp only [tick]
    rw [if_pos hcond, if_pos hdet]
    simp [Window.push_getLast s.window v h1]

/-- Witness for C6: with capacity 2 a first push leaves the window short and
the tick is detector-independent; with capacity 1 a push fills the window
and an always-flagging detector produces the record for the pushed value. -/
theorem C6_detection_only_when_full_witness :
    tick (fun _ => [false]) 3 (SimState.startState 2) =
      tick (fun _ => [true]) 3 (SimState.startState 2) ∧
    (tick (fun _ => [true]) 5 (SimState.startState 1)).allAnomalies =
      (SimState.startState 1).allAnomalies ++ [((SimState.startState 1).timeStep, 5)] :=
  ⟨((C6_detection_only_when_full (fun _ => [false]) 3 (SimState.startState 2)).1
      (by decide)).1 (fun _ => [true]),
   (C6_detection_only_when_full (fun _ => [true]) 5 (SimState.startState 1)).2
      (by decide) (by decide) (by decide)⟩

/-! ## Helper lemmas about permutations -/

theorem permuteL_length {n : ℕ} {α : Type _} (d : α) (σ : Equiv.Perm (Fin n))
    (l : List α) : (permuteL d σ l).length = n := by
  simp [permuteL]

theorem ofFn_getD {α : Type _} (d : α) (l : List α) :
    (List.ofFn (fun i : Fin l.length => l.getD i d)) = l := by
  conv_rhs => rw [← List.ofFn_getElem l]
  apply congrArg
  funext i
  exact List.getD_eq_getElem l d i.isLt

theorem permuteL_perm {n : ℕ} {α : Type _} (d : α) (σ : Equiv.Perm (Fin n))
    (l : List α) (h : l.length = n) : (permuteL d σ l).Perm l := by
  subst h
  have h2 := Equiv.Perm.ofFn_comp_perm σ (fun i : Fin l.length => l.getD i d)
  rw [ofFn_getD] at h2
  exact h2

theorem permuteL_map {n : ℕ} {α β : Type _} (σ : Equiv.Perm (Fin n)) (f : α → β)
    (d : α) (d2 : β) (l : List α) (h : l.length = n) :
    (permuteL d σ l).map f = permuteL d2 σ (l.map f) := by
  subst h
  rw [permuteL, permuteL, List.map_ofFn]
  apply congrArg
  funext i
  show f (l.getD (σ i) d) = (l.map f).getD (σ i) d2
  have hi : ((σ i : Fin l.length) : ℕ) < l.length := (σ i).isLt
  rw [List.getD_eq_getElem l d hi, List.getD_eq_getElem _ d2 (by rw [List.length_map]; exact hi),
    List.getElem_map]

theorem npMean_perm {l₁ l₂ : List ℝ} (h : l₁.Perm l₂) : npMean l₁ = npMean l₂ := by
  rw [npMean, npMean, h.sum_eq, h.length_eq]

theorem npStd_perm {l₁ l₂ : List ℝ} (h : l₁.Perm l₂) : npStd l₁ = npStd l₂ := by
  unfold npStd
  simp only [npMean_perm h]
  rw [(h.map (fun x => (x - npMean l₂) ^ 2)).sum_eq, h.length_eq]

theorem npMedian_perm {l₁ l₂ : List ℚ} (h : l₁.Perm l₂) : npMedian l₁ = npMedian l₂ := by
  have hs : l₁.mergeSort = l₂.mergeSort :=
    List.eq_of_perm_of_sorted
      ((List.mergeSort_perm l₁ _).trans (h.trans (List.mergeSort_perm l₂ _).symm))
      (List.sorted_mergeSort' l₁) (List.sorted_mergeSort' l₂)
  rw [npMedian, npMedian, hs, h.length_eq]

/-- Claim C7: the Z-score and MAD detectors are permutation-equivariant —
applying either detector to a permuted series (of length at least two)
yields exactly the same permutation of the result on the original series. -/
theorem C7_permutation_equivariant :
    (∀ (n : ℕ) (σ : Equiv.Perm (Fin n)) (series : List ℝ) (t : ℝ),
      series.length = n → 2 ≤ n →
      detect_anomalies_zscore (permuteL 0 σ series) t =
        permuteL false σ (detect_anomalies_zscore series t)) ∧
    (∀ (n : ℕ) (σ : Equiv.Perm (Fin n)) (series : List ℚ) (t : ℚ),
      series.length = n → 2 ≤ n →
      detect_anomalies_mad (permuteL 0 σ series) t =
        permuteL false σ (detect_anomalies_mad series t)) := by
  constructor
  · intro n σ series t h hn
    have hp := permuteL_perm 0 σ series h
    rw [detect_anomalies_zscore, if_neg (by rw [permuteL_length]; omega),
      detect_anomalies_zscore, if_neg (by omega)]
    simp only [npMean_perm hp, npStd_perm hp]
    exact permuteL_map σ _ 0 false series h
  · intro n σ series t h hn
    have hp := permuteL_perm 0 σ series h
    rw [detect_anomalies_mad, if_neg (by rw [permuteL_length]; omega),
      detect_anomalies_mad, if_neg (by omega)]
    simp only [npMedian_perm hp]
    simp only [npMedian_perm (hp.map (fun y => |y - npMedian series|))]
    exact permuteL_map σ _ 0 false series h

/-- Witness for C7: swapping the two elements of `[1, 2]` commutes with both
detectors. -/
theorem C7_permutation_equivariant_witness :
    detect_anomalies_zscore (permuteL 0 (Equiv.swap (0 : Fin 2) 1) [1, 2]) 3 =
      permuteL false (Equiv.swap (0 : Fin 2) 1) (detect_anomalies_zscore [1, 2] 3) ∧
    detect_anomalies_mad (permuteL 0 (Equiv.swap (0 : Fin 2) 1) [1, 2]) 3 =
      permuteL false (Equiv.swap (0 : Fin 2) 1) (detect_anomalies_mad [1, 2] 3) :=
  ⟨C7_permutation_equivariant.1 2 (Equiv.swap 0 1) [1, 2] 3 (by decide) (by decide),
   C7_permutation_equivariant.2 2 (Equiv.swap 0 1) [1, 2] 3 (by decide) (by decide)⟩

/-! ## Preservation of the record invariant -/

theorem RecordInv_tick (det : List ℚ → List Bool) (v : ℚ) (s : SimState)
    (hcap : 1 ≤ s.window.cap) (h : RecordInv s) : RecordInv (tick det v s) := by
  obtain ⟨h1, h2, h3, h4⟩ := h
  have hD := tick_allData det v s
  have hT := tick_timeStep det v s
  rcases tick_allAnomalies det v s hcap with he | he
  · refine ⟨?_, ?_, ?_, ?_⟩
    · rw [hT, hD, List.length_append, h1]
      rfl
    · intro iv hiv
      rw [he] at hiv
      rw [hD, List.getElem?_append_left (by rw [← h1]; exact h3 iv hiv)]
      exact h2 iv hiv
    · intro iv hiv
      rw [he] at hiv
      rw [hT]
      exact Nat.lt_succ_of_lt (h3 iv hiv)
    · rw [he]
      exact h4
  · refine ⟨?_, ?_, ?_, ?_⟩
    · rw [hT, hD, List.length_append, h1]
      rfl
    · intro iv hiv
      rw [he] at hiv
      rw [hD]
      rcases List.mem_append.mp hiv with hm | hm
      · rw [List.getElem?_append_left (by rw [← h1]; exact h3 iv hm)]
        exact h2 iv hm
      · have hiveq : iv = (s.timeStep, v) := by simpa using hm
        subst hiveq
        rw [h1]
        exact List.getElem?_concat_length s.allData v
    · intro iv hiv
      rw [he] at hiv
      rw [hT]
      rcases List.mem_append.mp hiv with hm | hm
      · exact Nat.lt_succ_of_lt (h3 iv hm)
      · have hiveq : iv = (s.timeStep, v) := by simpa using hm
        subst hiveq
        exact Nat.lt_succ_self _
    · rw [he, List.map_append, List.chain'_append]
      refine ⟨h4, List.chain'_singleton _, ?_⟩
      intro x hx y hy
      have hy' : s.timeStep = y := by simpa using hy
      subst hy'
      rw [List.getLast?_map] at hx
      rcases hgl : s.allAnomalies.getLast? with _ | iv
      · rw [hgl] at hx
        simp at hx
      · rw [hgl] at hx
        have hxe : iv.1 = x := by simpa using hx
        subst hxe
        exact h3 iv (List.mem_of_mem_getLast? (by rw [hgl]; rfl))

theorem RecordInv_runTicks (det : List ℚ → List Bool) (vs : List ℚ) :
    ∀ (s : SimState), 1 ≤ s.window.cap → RecordInv s →
      RecordInv (runTicks det s vs) := by
  induction vs with
  | nil => intro s _ h; exact h
  | cons v vs ih =>
    intro s hcap h
    show RecordInv (runTicks det (tick det v s) vs)
    apply ih
    · rw [tick_window, Window.push_cap]
      exact hcap
    · exact RecordInv_tick det v s hcap h

/-- Claim C10: starting from a fresh state with positive window capacity,
after any run of the tick loop every anomaly record `(index, value)` points
at exactly that value in the full historical data sequence, and the record
indices are strictly increasing. -/
theorem C10_records_point_at_history (det : List ℚ → List Bool) (C : ℕ)
    (vs : List ℚ) (hC : 1 ≤ C) :
    (∀ iv ∈ (runTicks det (SimState.startState C) vs).allAnomalies,
      (runTicks det (SimState.startState C) vs).allData[iv.1]? = some iv.2) ∧
    ((runTicks det (SimState.startState C) vs).allAnomalies.map Prod.fst).Chain'
      (· < ·) := by
  have hinv : RecordInv (SimState.startState C) := by
    refine ⟨rfl, ?_, ?_, ?_⟩ <;> simp [SimState.startState, RecordInv]
  have h := RecordInv_runTicks det vs (SimState.startState C) hC hinv
  exact ⟨h.2.1, h.2.2.2⟩

/-- Witness for C10: capacity 1 with an always-flagging detector over two
ticks records both values at their correct indices. -/
theorem C10_records_point_at_history_witness :
    (∀ iv ∈ (runTicks (fun _ => [true]) (SimState.startState 1) [3, 4]).allAnomalies,
      (runTicks (fun _ => [true]) (SimState.startState 1) [3, 4]).allData[iv.1]? =
        some iv.2) ∧
    ((runTicks (fun _ => [true]) (SimState.startState 1) [3, 4]).allAnomalies.map
      Prod.fst).Chain' (· < ·) :=
  C10_records_point_at_history (fun _ => [true]) 1 [3, 4] (by decide)

end AnomalyDashboard
